import Mathlib

/-!
Verification of the credential vault and signing pipeline of the pdf-signer
application (src/src/main/index.ts).

Modelling conventions:
* Byte buffers are `List Nat` (each element a byte value).
* The AES-256-GCM primitive is the host library's (node `crypto`), not this
  repository's code; it is embedded parametrically: GCM is counter-mode
  XOR with a keystream derived from (key, iv), plus a 16-byte
  authentication tag computed from (key, iv, ciphertext).  A `CryptoHost`
  carries these two functions.  `encryptData` / `decryptData` below are the
  repository's functions from src/src/main/index.ts lines 79-98, written
  over that interface.
* `JSON.stringify` / `JSON.parse` are likewise host primitives, embedded as
  a `JsonCodec`.
* File-system and `safeStorage` state for the vault handlers is an explicit
  `VaultWorld` record, with `safeStorage` wrap/unwrap as a `SecretStore`.
-/

namespace PdfSigner

/-- Counter-mode XOR: byte `i` of the plaintext is XORed with byte `i` of
the keystream.  `ks` is the keystream indexed from the start of the
message; the first argument is the current index. -/
def ctrXor (ks : Nat → Nat) : Nat → List Nat → List Nat
  | _, [] => []
  | i, b :: rest => (b ^^^ ks i) :: ctrXor ks (i + 1) rest

/-- Flip bit `t` of the byte at index `i` (identity when `i` is out of
range).  Used to state tamper-detection properties. -/
def flipByte : Nat → Nat → List Nat → List Nat
  | _, _, [] => []
  | 0, t, b :: rest => (b ^^^ 2 ^ t) :: rest
  | i + 1, t, b :: rest => b :: flipByte i t rest

/-- The host cryptography primitive (node `crypto`, algorithm
`aes-256-gcm`): a keystream function (counter mode) and an authentication
tag function.  `ks key iv i` is byte `i` of the keystream under
`(key, iv)`; `tagf key iv ct` is the 16-byte GCM tag of ciphertext `ct`
under `(key, iv)` (no associated data is used by the source). -/
structure CryptoHost where
  ks : List Nat → List Nat → Nat → Nat
  tagf : List Nat → List Nat → List Nat → List Nat

/-- The host JSON primitive: `stringify` is `JSON.stringify` followed by
UTF-8 encoding, `parse` is the reverse (`none` models a thrown
`SyntaxError`). -/
structure JsonCodec (J : Type) where
  stringify : J → List Nat
  parse : List Nat → Option J

/-- `encryptData` (src/src/main/index.ts:79-87).  The source draws
`iv = crypto.randomBytes(16)`; the fresh random bytes are passed in as the
`iv` argument.  Returns `Buffer.concat([iv, authTag, encrypted])`. -/
def encryptData (C : CryptoHost) {J : Type} (codec : JsonCodec J)
    (masterKey iv : List Nat) (jsonData : J) : List Nat :=
  let jsonStr := codec.stringify jsonData
  let encrypted := ctrXor (C.ks masterKey iv) 0 jsonStr
  let authTag := C.tagf masterKey iv encrypted
  iv ++ (authTag ++ encrypted)

/-- The ciphertext portion of the envelope `encryptData` builds. -/
def envelopeCiphertext (C : CryptoHost) {J : Type} (codec : JsonCodec J)
    (masterKey iv : List Nat) (jsonData : J) : List Nat :=
  ctrXor (C.ks masterKey iv) 0 (codec.stringify jsonData)

/-- `decryptData` (src/src/main/index.ts:89-98): slices the buffer at the
fixed offsets 16 and 32 (`subarray(0,16)`, `subarray(16,32)`,
`subarray(32)`), then decrypts.  `none` models a thrown error: node's
`setAuthTag` rejects a tag that is not 16 bytes, `decipher.final()` throws
when the recomputed GCM tag differs from the stored one, and `JSON.parse`
may throw; in every such case no plaintext is returned. -/
def decryptData (C : CryptoHost) {J : Type} (codec : JsonCodec J)
    (masterKey fileBuffer : List Nat) : Option J :=
  let iv := fileBuffer.take 16
  let authTag := (fileBuffer.drop 16).take 16
  let encrypted := fileBuffer.drop 32
  if authTag.length ≠ 16 then none
  else if C.tagf masterKey iv encrypted ≠ authTag then none
  else codec.parse (ctrXor (C.ks masterKey iv) 0 encrypted)

/-- Follows the spec's words, for comparison with `decryptData`: the spec
declares the envelope layout `nonce(12B) ‖ tag(16B) ‖ ciphertext`, so this
variant splits the buffer at offsets 12 and 28 instead of 16 and 32. -/
def decryptDataSpecSplit (C : CryptoHost) {J : Type} (codec : JsonCodec J)
    (masterKey fileBuffer : List Nat) : Option J :=
  let iv := fileBuffer.take 12
  let authTag := (fileBuffer.drop 12).take 16
  let encrypted := fileBuffer.drop 28
  if authTag.length ≠ 16 then none
  else if C.tagf masterKey iv encrypted ≠ authTag then none
  else codec.parse (ctrXor (C.ks masterKey iv) 0 encrypted)

/-! Concrete instances used to witness the theorems below. -/

/-- A concrete keystream: all zeros. -/
def ksW : List Nat → List Nat → Nat → Nat := fun _ _ _ => 0

/-- A concrete tag function: first byte is the XOR-fold of `iv ++ ct`,
padded with zeros to 16 bytes.  Flipping any single bit of `iv` or `ct`
changes the fold, so single-bit tampering is detectable under it. -/
def tagW : List Nat → List Nat → List Nat → List Nat :=
  fun _ iv ct => ((iv ++ ct).foldr (fun a b => a ^^^ b) 0) :: List.replicate 15 0

/-- Concrete crypto host for witnesses. -/
def hostW : CryptoHost := ⟨ksW, tagW⟩

/-- Concrete codec for witnesses: payloads are single bytes. -/
def codecW : JsonCodec Nat :=
  ⟨fun n => [n % 256], fun l => match l with | [b] => some b | _ => none⟩

/-- Concrete 32-byte master key for witnesses. -/
def kW : List Nat := List.replicate 32 7

/-- Concrete 16-byte iv for witnesses. -/
def ivW : List Nat := List.replicate 16 1

/-! The credential vault: `safeStorage`-wrapped master key plus the three
IPC handlers.  The on-disk state is a `VaultWorld` (contents of
`master.key.enc` and `user-data.bin`); the OS secret store is a
`SecretStore` capability. -/

/-- The host `safeStorage` capability.  `unwrap` is
`safeStorage.decryptString` followed by base64 decoding (a thrown error is
`none`); `wrap` is base64 encoding followed by
`safeStorage.encryptString`. -/
structure SecretStore where
  available : Bool
  unwrap : List Nat → Option (List Nat)
  wrap : List Nat → List Nat

/-- On-disk state of the user-data directory: the wrapped master key file
`master.key.enc` and the vault file `user-data.bin` (`none` = file does
not exist). -/
structure VaultWorld where
  keyFile : Option (List Nat)
  vaultFile : Option (List Nat)
deriving DecidableEq

/-- `getOrGenerateMasterKey` (src/src/main/index.ts:51-77): bails out with
`null` when the secret store is unavailable; otherwise unwraps the stored
key file, accepting it only when the unwrap succeeds and yields 32 bytes;
on any failure (absent, unreadable, wrong length) generates a fresh
32-byte key (`freshKey` stands for `crypto.randomBytes(32)`), wraps and
persists it, overwriting the key file. -/
def getOrGenerateMasterKey (ss : SecretStore) (freshKey : List Nat)
    (w : VaultWorld) : Option (List Nat) × VaultWorld :=
  if ss.available then
    match w.keyFile with
    | some blob =>
      match ss.unwrap blob with
      | some keyBuffer =>
        if keyBuffer.length = 32 then (some keyBuffer, w)
        else (some freshKey, ⟨some (ss.wrap freshKey), w.vaultFile⟩)
      | none => (some freshKey, ⟨some (ss.wrap freshKey), w.vaultFile⟩)
    | none => (some freshKey, ⟨some (ss.wrap freshKey), w.vaultFile⟩)
  else (none, w)

/-- Result of the `auth:load-credentials` handler: the renderer receives
either `null` or the decrypted record.  The source returns the same
`null` both when no vault file exists and when key retrieval or
decryption fails (the catch clause at src/src/main/index.ts:256-259). -/
inductive LoadResult (J : Type) where
  | nullRes : LoadResult J
  | record : J → LoadResult J
deriving DecidableEq

/-- The `auth:save-credentials` handler (src/src/main/index.ts:235-246):
`false` when no master key is obtainable, otherwise encrypts and
overwrites `user-data.bin` and returns `true`. -/
def saveCredentials (ss : SecretStore) (C : CryptoHost) {J : Type}
    (codec : JsonCodec J) (freshKey iv : List Nat) (data : J)
    (w : VaultWorld) : Bool × VaultWorld :=
  match getOrGenerateMasterKey ss freshKey w with
  | (none, w1) => (false, w1)
  | (some masterKey, w1) =>
      (true, ⟨w1.keyFile, some (encryptData C codec masterKey iv data)⟩)

/-- The `auth:load-credentials` handler (src/src/main/index.ts:248-260):
`null` when `user-data.bin` does not exist, when no master key is
obtainable, and when `decryptData` throws (the catch clause); otherwise
the decrypted record. -/
def loadCredentials (ss : SecretStore) (C : CryptoHost) {J : Type}
    (codec : JsonCodec J) (freshKey : List Nat) (w : VaultWorld) :
    LoadResult J × VaultWorld :=
  match w.vaultFile with
  | none => (LoadResult.nullRes, w)
  | some fileBuffer =>
    match getOrGenerateMasterKey ss freshKey w with
    | (none, w1) => (LoadResult.nullRes, w1)
    | (some masterKey, w1) =>
      match decryptData C codec masterKey fileBuffer with
      | some recordValue => (LoadResult.record recordValue, w1)
      | none => (LoadResult.nullRes, w1)

/-- The `auth:clear-credentials` handler (src/src/main/index.ts:262-266):
removes `user-data.bin` when it exists and returns `true`
unconditionally. -/
def clearCredentials (w : VaultWorld) : Bool × VaultWorld :=
  (true, ⟨w.keyFile, none⟩)

/-- Concrete secret store for witnesses: wrapping is the identity and
unwrapping accepts exactly 32-byte blobs. -/
def ssW : SecretStore :=
  ⟨true, fun blob => if blob.length = 32 then some blob else none, fun b => b⟩

/-- Concrete world whose key file wraps a valid 32-byte key and whose
vault file is a malformed 3-byte envelope. -/
def wBad : VaultWorld := ⟨some (List.replicate 32 7), some [9, 9, 9]⟩

/-- Concrete world with a valid key file and no vault file. -/
def wGood : VaultWorld := ⟨some (List.replicate 32 7), none⟩

/-- Concrete fresh randomness for key generation in witnesses. -/
def freshW : List Nat := List.replicate 32 3

/-- Concrete secret store modelling a platform where
`safeStorage.isEncryptionAvailable()` is `false`. -/
def ssUnavailW : SecretStore := ⟨false, fun _ => none, fun b => b⟩

/-! The sign-pdf pipeline (the `sign-pdf` IPC handler,
src/src/main/index.ts:137-232).  Paths are `List Char`; the file system is
a map from path to file contents; the pdf-lib / @signpdf primitives are a
`SignHost` capability.  A thrown error inside the `try` block is an
`Except.error` carrying the `error.message` string; the surrounding
`catch` turns it into the `{ success: false, error }` result. -/

/-- File-system state: path to contents, `none` meaning no such file. -/
abbrev FS : Type := List Char → Option (List Nat)

/-- `fs.writeFileSync`: update one path. -/
def writeFS (fs : FS) (p : List Char) (b : List Nat) : FS :=
  fun q => if q = p then some b else fs q

/-- The argument record the renderer sends to the `sign-pdf` handler. -/
structure SignArgs where
  filePath : List Char
  certPath : List Char
  password : List Char
  pageIndex : Nat
  x : Int
  y : Int
  width : Int
  height : Int
  text : List Char
  fontSize : Nat
  dateText : List Char

/-- Host primitives of the signing pipeline: `PDFDocument.load` (parse
failure → `none`), page count, the annotation block (embedFont, drawText
layout and `pdfDoc.save`, any thrown error → `none`),
`plainAddPlaceholder`, and the P12 signing step (`P12Signer` +
`SignPdf().sign`; wrong passphrase or malformed bundle →
`Except.error` with the thrown message). -/
structure SignHost (Doc : Type) where
  loadPdf : List Nat → Option Doc
  numPages : Doc → Nat
  annotate : Doc → SignArgs → Option (List Nat)
  addPlaceholder : List Nat → Option (List Nat)
  p12Sign : List Nat → List Nat → List Char → Except (List Char) (List Nat)

/-- Message of the error thrown by `fs.readFileSync` on a missing input
file. -/
def fileReadMsg : List Char := "ENOENT no such file or directory".data

/-- Message of the error thrown by `PDFDocument.load` on unparsable
bytes. -/
def pdfParseMsg : List Char := "Failed to parse PDF document".data

/-- Message of an error thrown inside the annotation block. -/
def annotateFailMsg : List Char := "annotation drawing failed".data

/-- Message of an error thrown by `plainAddPlaceholder`. -/
def placeholderFailMsg : List Char := "placeholder insertion failed".data

/-- The literal thrown at src/src/main/index.ts:212 when the certificate
file does not exist. -/
def certNotFoundMsg : List Char := "Certificate file not found".data

/-- Message of the TypeError JavaScript throws at
`page.getSize()` (src/src/main/index.ts:158) when `pages[pageIndex]` is
`undefined`, i.e. when the page index is out of range: there is no
explicit page-index validation in the source. -/
def pageUndefinedMsg : List Char :=
  "Cannot read properties of undefined reading getSize".data

/-- The error kind named by the spec for an out-of-range page index; it
appears nowhere in the source. -/
def invalidPageMsg : List Char := "InvalidPage".data

/-- Whether the path ends in `.pdf` case-insensitively — the condition
under which the regex `/(\.pdf)$/i` of src/src/main/index.ts:224
matches. -/
def pdfSuffix (p : List Char) : Bool :=
  decide ((p.map Char.toLower).reverse.take 4 = ['f', 'd', 'p', '.'])

/-- `filePath.replace(/(\.pdf)$/i, '_signed.pdf')`
(src/src/main/index.ts:224): when the path ends in `.pdf`
(case-insensitively) the suffix is replaced by `_signed.pdf`; otherwise
the regex does not match and the path is returned unchanged. -/
def outputPathOf (p : List Char) : List Char :=
  if pdfSuffix p then p.take (p.length - 4) ++ "_signed.pdf".data else p

/-- The `try` block of the `sign-pdf` handler
(src/src/main/index.ts:152-227), up to but excluding the final
`writeFileSync`: read the input, parse it, access `pages[pageIndex]`
(out of range → the TypeError of `pageUndefinedMsg`), draw the annotation
and save, add the signature placeholder, check and read the certificate
file (`certNotFoundMsg`), sign. Returns the output path and signed
bytes. -/
def signPdfTry {Doc : Type} (H : SignHost Doc) (fs : FS)
    (args : SignArgs) : Except (List Char) (List Char × List Nat) :=
  match fs args.filePath with
  | none => Except.error fileReadMsg
  | some pdfBuffer =>
    match H.loadPdf pdfBuffer with
    | none => Except.error pdfParseMsg
    | some pdfDoc =>
      if args.pageIndex < H.numPages pdfDoc then
        match H.annotate pdfDoc args with
        | none => Except.error annotateFailMsg
        | some modifiedPdf =>
          match H.addPlaceholder modifiedPdf with
          | none => Except.error placeholderFailMsg
          | some pdfWithPh =>
            match fs args.certPath with
            | none => Except.error certNotFoundMsg
            | some p12Buffer =>
              match H.p12Sign pdfWithPh p12Buffer args.password with
              | Except.error m => Except.error m
              | Except.ok signedPdf =>
                  Except.ok (outputPathOf args.filePath, signedPdf)
      else Except.error pageUndefinedMsg

/-- The value the `sign-pdf` invocation resolves with:
`{ success: true, path }` or `{ success: false, error }`. -/
inductive SignResult where
  | ok : List Char → SignResult
  | err : List Char → SignResult
deriving DecidableEq

/-- The complete `sign-pdf` handler: on success of the `try` block the
signed bytes are written to the output path (the last step) and
`{ success: true, path }` is returned; any thrown error is caught and
returned as `{ success: false, error: error.message }`, leaving the file
system untouched. -/
def signPdfHandler {Doc : Type} (H : SignHost Doc) (fs : FS)
    (args : SignArgs) : SignResult × FS :=
  match signPdfTry H fs args with
  | Except.ok (outPath, signedPdf) =>
      (SignResult.ok outPath, writeFS fs outPath signedPdf)
  | Except.error m => (SignResult.err m, fs)

/-- Concrete signing host for witnesses: a one-page document type with
every step succeeding. -/
def docHostW : SignHost Unit :=
  ⟨fun _ => some (), fun _ => 1, fun _ _ => some [1],
    fun b => some (b ++ [2]), fun pdf _ _ => Except.ok (pdf ++ [3])⟩

/-- Concrete file system for witnesses: a document under `a.txt`, the
same document under `a.pdf`, and a certificate bundle under `c.p12`. -/
def fs0 : FS := fun p =>
  if p = "a.txt".data then some [0]
  else if p = "a.pdf".data then some [0]
  else if p = "c.p12".data then some [9] else none

/-- A signing request whose document path does not end in `.pdf`. -/
def argsTxt : SignArgs :=
  ⟨"a.txt".data, "c.p12".data, "pw".data, 0, 0, 0, 0, 0,
    "sig".data, 14, []⟩

/-- A signing request for the `.pdf` document. -/
def argsPdf : SignArgs :=
  ⟨"a.pdf".data, "c.p12".data, "pw".data, 0, 0, 0, 0, 0,
    "sig".data, 14, []⟩

/-- A signing request whose page index (5) is out of range for the
one-page document. -/
def argsBad : SignArgs :=
  ⟨"a.pdf".data, "c.p12".data, "pw".data, 5, 0, 0, 0, 0,
    "sig".data, 14, []⟩

/-! Helper lemmas. -/

theorem ctrXor_ctrXor (ks : Nat → Nat) (i : Nat) (l : List Nat) :
    ctrXor ks i (ctrXor ks i l) = l := by
  induction l generalizing i with
  | nil => rfl
  | cons b rest ih =>
      simp only [ctrXor, Nat.xor_assoc, Nat.xor_self, Nat.xor_zero, ih]

theorem flipByte_length (i t : Nat) (l : List Nat) :
    (flipByte i t l).length = l.length := by
  induction l generalizing i with
  | nil => cases i <;> rfl
  | cons b rest ih =>
      cases i with
      | zero => rfl
      | succ j =>
          show (b :: flipByte j t rest).length = (b :: rest).length
          simp [ih j]

theorem flipByte_append_left (i t : Nat) (l₁ l₂ : List Nat)
    (h : i < l₁.length) :
    flipByte i t (l₁ ++ l₂) = flipByte i t l₁ ++ l₂ := by
  induction l₁ generalizing i with
  | nil => simp at h
  | cons b rest ih =>
      cases i with
      | zero => rfl
      | succ j =>
          have hj : j < rest.length := by simpa using h
          show b :: flipByte j t (rest ++ l₂) = b :: (flipByte j t rest ++ l₂)
          rw [ih j hj]

theorem flipByte_append_right (i t : Nat) (l₁ l₂ : List Nat)
    (h : l₁.length ≤ i) :
    flipByte i t (l₁ ++ l₂) = l₁ ++ flipByte (i - l₁.length) t l₂ := by
  induction l₁ generalizing i with
  | nil => simp
  | cons b rest ih =>
      cases i with
      | zero => simp at h
      | succ j =>
          have hj : rest.length ≤ j := by simpa using h
          have hidx : j + 1 - (b :: rest).length = j - rest.length := by
            simp only [List.length_cons]
            omega
          rw [hidx]
          show b :: flipByte j t (rest ++ l₂) =
            b :: (rest ++ flipByte (j - rest.length) t l₂)
          rw [ih j hj]

theorem xor_two_pow_ne (b t : Nat) : b ^^^ 2 ^ t ≠ b := by
  intro h
  have h2 := congrArg (fun y => b ^^^ y) h
  simp only [← Nat.xor_assoc, Nat.xor_self, Nat.zero_xor] at h2
  exact absurd h2 (Nat.pos_iff_ne_zero.mp (Nat.two_pow_pos t))

theorem flipByte_ne (i t : Nat) (l : List Nat) (h : i < l.length) :
    flipByte i t l ≠ l := by
  induction l generalizing i with
  | nil => simp at h
  | cons b rest ih =>
      cases i with
      | zero =>
          simp only [flipByte, ne_eq, List.cons.injEq, not_and]
          intro hb
          exact absurd hb (xor_two_pow_ne b t)
      | succ j =>
          simp only [flipByte, ne_eq, List.cons.injEq, not_and]
          intro _
          exact ih j (by simpa using h)

theorem drop32_append (a b c : List Nat) (ha : a.length = 16)
    (hb : b.length = 16) : (a ++ (b ++ c)).drop 32 = c := by
  have h := List.drop_drop 16 16 (a ++ (b ++ c))
  rw [List.drop_left' ha, List.drop_left' hb] at h
  norm_num at h
  exact h.symm

/-- Claim C1: for every 32-byte master key `k` and every JSON-serializable
record `p`, decryption round-trips: `decryptData k (encryptData k p) = p`.
The iv is the fresh 16 random bytes the source draws, the crypto host is
any GCM instance whose tag is 16 bytes, and serializability of `p` is the
hypothesis that the JSON codec round-trips on `p`. -/
theorem decrypt_encrypt_roundtrip (C : CryptoHost) {J : Type}
    (codec : JsonCodec J) (k iv : List Nat) (p : J)
    (hiv : iv.length = 16)
    (htag : ∀ ct : List Nat, (C.tagf k iv ct).length = 16)
    (hp : codec.parse (codec.stringify p) = some p) :
    decryptData C codec k (encryptData C codec k iv p) = some p := by
  have henc : encryptData C codec k iv p =
      iv ++ (C.tagf k iv (ctrXor (C.ks k iv) 0 (codec.stringify p)) ++
        ctrXor (C.ks k iv) 0 (codec.stringify p)) := rfl
  simp only [decryptData, henc]
  rw [drop32_append _ _ _ hiv (htag _), List.take_left' hiv,
    List.drop_left' hiv, List.take_left' (htag _)]
  simp [htag, ctrXor_ctrXor, hp]

/-- Witness for C1 at concrete inputs. -/
theorem decrypt_encrypt_roundtrip_witness :
    ivW.length = 16 ∧
    decryptData hostW codecW kW (encryptData hostW codecW kW ivW 5) = some 5 :=
  ⟨rfl, decrypt_encrypt_roundtrip hostW codecW kW ivW 5 rfl (fun _ => rfl) rfl⟩

/-- Counterexample to claim C2 as stated: the claim (with the spec) gives
the envelope layout as `nonce(12B) ‖ tag(16B) ‖ ciphertext` with
`decryptData` splitting at those widths, but the source draws a 16-byte
iv (`crypto.randomBytes(16)`) and `decryptData` slices at offsets 16 and
32.  On a concrete envelope the real `decryptData` succeeds while the
12/28 split of the spec's words (`decryptDataSpecSplit`) fails. -/
theorem envelope_nonce_width_counterexample :
    decryptData hostW codecW kW (encryptData hostW codecW kW ivW 5) =
      some 5 ∧
    decryptDataSpecSplit hostW codecW kW (encryptData hostW codecW kW ivW 5) =
      none := by
  decide

/-- Claim C2 (amended): the envelope layout is nonce(16 bytes) ‖
tag(16 bytes) ‖ ciphertext — the source draws a 16-byte iv, not the
12-byte nonce the claim states — and `decryptData` splits the envelope at
exactly the offsets 16 and 32, reaching the plaintext of the ciphertext
portion. -/
theorem envelope_layout_sixteen (C : CryptoHost) {J : Type}
    (codec : JsonCodec J) (k iv : List Nat) (p : J)
    (hiv : iv.length = 16)
    (htag : ∀ ct : List Nat, (C.tagf k iv ct).length = 16) :
    (encryptData C codec k iv p).take 16 = iv ∧
    ((encryptData C codec k iv p).drop 16).take 16 =
      C.tagf k iv (envelopeCiphertext C codec k iv p) ∧
    (encryptData C codec k iv p).drop 32 =
      envelopeCiphertext C codec k iv p ∧
    decryptData C codec k (encryptData C codec k iv p) =
      codec.parse (ctrXor (C.ks k iv) 0 (envelopeCiphertext C codec k iv p)) := by
  have henc : encryptData C codec k iv p =
      iv ++ (C.tagf k iv (envelopeCiphertext C codec k iv p) ++
        envelopeCiphertext C codec k iv p) := rfl
  refine ⟨?_, ?_, ?_, ?_⟩
  · rw [henc, List.take_left' hiv]
  · rw [henc, List.drop_left' hiv, List.take_left' (htag _)]
  · rw [henc, drop32_append _ _ _ hiv (htag _)]
  · simp only [decryptData, henc]
    rw [drop32_append _ _ _ hiv (htag _), List.take_left' hiv,
      List.drop_left' hiv, List.take_left' (htag _)]
    simp [htag]

/-- Witness for the amended C2 at concrete inputs. -/
theorem envelope_layout_sixteen_witness :
    ivW.length = 16 ∧
    (encryptData hostW codecW kW ivW 5).take 16 = ivW :=
  ⟨rfl, (envelope_layout_sixteen hostW codecW kW ivW 5 rfl (fun _ => rfl)).1⟩

theorem decrypt_flip_iv (C : CryptoHost) {J : Type} (codec : JsonCodec J)
    (k : List Nat) (a b c : List Nat) (i t : Nat)
    (ha : a.length = 16) (hb : b.length = 16) (hi : i < 16)
    (hbtag : b = C.tagf k a c)
    (hne : C.tagf k (flipByte i t a) c ≠ C.tagf k a c) :
    decryptData C codec k (flipByte i t (a ++ (b ++ c))) = none := by
  have hfa : (flipByte i t a).length = 16 := (flipByte_length i t a).trans ha
  rw [flipByte_append_left i t a (b ++ c) (by rw [ha]; exact hi)]
  simp only [decryptData]
  rw [drop32_append _ _ _ hfa hb, List.take_left' hfa,
    List.drop_left' hfa, List.take_left' hb]
  simp [hb, hbtag, hne]

theorem decrypt_flip_tag (C : CryptoHost) {J : Type} (codec : JsonCodec J)
    (k : List Nat) (a b c : List Nat) (i t : Nat)
    (ha : a.length = 16) (hb : b.length = 16)
    (hi : 16 ≤ i) (hi2 : i < 32)
    (hbtag : b = C.tagf k a c) :
    decryptData C codec k (flipByte i t (a ++ (b ++ c))) = none := by
  have h16 : a.length ≤ i := by rw [ha]; exact hi
  rw [flipByte_append_right i t a (b ++ c) h16, ha]
  have hj : i - 16 < b.length := by rw [hb]; omega
  rw [flipByte_append_left (i - 16) t b c hj]
  have hfb : (flipByte (i - 16) t b).length = 16 :=
    (flipByte_length _ _ _).trans hb
  have hne2 : C.tagf k a c ≠ flipByte (i - 16) t b := by
    rw [← hbtag]
    exact (flipByte_ne (i - 16) t b hj).symm
  simp only [decryptData]
  rw [drop32_append _ _ _ ha hfb, List.take_left' ha,
    List.drop_left' ha, List.take_left' hfb]
  simp [hfb, hne2]

theorem decrypt_flip_ct (C : CryptoHost) {J : Type} (codec : JsonCodec J)
    (k : List Nat) (a b c : List Nat) (i t : Nat)
    (ha : a.length = 16) (hb : b.length = 16) (hi : 32 ≤ i)
    (hne : C.tagf k a (flipByte (i - 32) t c) ≠ b) :
    decryptData C codec k (flipByte i t (a ++ (b ++ c))) = none := by
  have h16 : a.length ≤ i := by rw [ha]; omega
  rw [flipByte_append_right i t a (b ++ c) h16, ha]
  have h16b : b.length ≤ i - 16 := by rw [hb]; omega
  rw [flipByte_append_right (i - 16) t b c h16b, hb]
  have hidx : i - 16 - 16 = i - 32 := by omega
  rw [hidx]
  simp only [decryptData]
  rw [drop32_append _ _ _ ha hb, List.take_left' ha,
    List.drop_left' ha, List.take_left' hb]
  simp [hb, hne]

/-- Claim C3: every single-bit modification of the envelope — in the
nonce, tag or ciphertext region — makes `decryptData` fail (never return
altered plaintext), and malformed, too-short envelopes fail as well.
A bit flip inside the stored tag fails unconditionally, because the
recomputed tag over the unchanged nonce/ciphertext equals the original
tag, which the flip has changed.  A flip in the nonce or ciphertext region
changes the input of the tag recomputation, so its failure is exactly
GCM's authentication guarantee; that property of the host primitive enters
as the hypotheses `hivflip`/`hctflip` on the tag function. -/
theorem decrypt_tamper_fails (C : CryptoHost) {J : Type}
    (codec : JsonCodec J) (k iv : List Nat) (p : J)
    (hiv : iv.length = 16)
    (htag : ∀ ct : List Nat, (C.tagf k iv ct).length = 16)
    (hivflip : ∀ i, i < 16 → ∀ t, t < 8 →
      C.tagf k (flipByte i t iv) (envelopeCiphertext C codec k iv p) ≠
        C.tagf k iv (envelopeCiphertext C codec k iv p))
    (hctflip : ∀ i, i < (envelopeCiphertext C codec k iv p).length →
      ∀ t, t < 8 →
      C.tagf k iv (flipByte i t (envelopeCiphertext C codec k iv p)) ≠
        C.tagf k iv (envelopeCiphertext C codec k iv p)) :
    (∀ i, i < (encryptData C codec k iv p).length → ∀ t, t < 8 →
      decryptData C codec k (flipByte i t (encryptData C codec k iv p)) =
        none) ∧
    (∀ buf : List Nat, buf.length < 32 →
      decryptData C codec k buf = none) := by
  have henc : encryptData C codec k iv p =
      iv ++ (C.tagf k iv (envelopeCiphertext C codec k iv p) ++
        envelopeCiphertext C codec k iv p) := rfl
  constructor
  · intro i hi t ht
    rw [henc] at hi ⊢
    simp only [List.length_append, hiv, htag] at hi
    by_cases h1 : i < 16
    · exact decrypt_flip_iv C codec k _ _ _ i t hiv (htag _) h1 rfl
        (hivflip i h1 t ht)
    · by_cases h2 : i < 32
      · exact decrypt_flip_tag C codec k _ _ _ i t hiv (htag _)
          (by omega) h2 rfl
      · exact decrypt_flip_ct C codec k _ _ _ i t hiv (htag _) (by omega)
          (hctflip (i - 32) (by omega) t ht)
  · intro buf hbuf
    simp only [decryptData]
    have hshort : ((buf.drop 16).take 16).length ≠ 16 := by
      simp only [List.length_take, List.length_drop]
      omega
    rw [if_pos hshort]

/-- Witness for C3 at concrete inputs: the concrete tag function `tagW`
is sensitive to every single-bit flip of its nonce/ciphertext input, so
the hypotheses are dischargeable; a flip of envelope byte 0 fails, as does
a 3-byte (too short) envelope. -/
theorem decrypt_tamper_fails_witness :
    ivW.length = 16 ∧
    decryptData hostW codecW kW
      (flipByte 0 0 (encryptData hostW codecW kW ivW 5)) = none ∧
    decryptData hostW codecW kW [1, 2, 3] = none :=
  ⟨rfl,
    (decrypt_tamper_fails hostW codecW kW ivW 5 rfl (fun _ => rfl)
      (by decide) (by decide)).1 0 (by decide) 0 (by decide),
    (decrypt_tamper_fails hostW codecW kW ivW 5 rfl (fun _ => rfl)
      (by decide) (by decide)).2 [1, 2, 3] (by decide)⟩

/-- Counterexample to claim C4 as stated: the claim says the
`auth:load-credentials` handler returns `None` exactly when no vault file
exists and a `DecryptFailure` result distinct from `None` when the stored
envelope fails authentication.  In the source the catch clause returns the
same `null` on decryption failure: here the vault file exists (a malformed
3-byte envelope, which fails authentication) yet the handler returns the
`null` result. -/
theorem load_decrypt_failure_counterexample :
    (loadCredentials ssW hostW codecW freshW wBad).1 = LoadResult.nullRes ∧
    wBad.vaultFile ≠ none := by
  decide

/-- Claim C4 (amended): the handler returns `null` when no vault file
exists, and it also returns the very same `null` — not a distinct
`DecryptFailure` value — when the master key is unavailable or the stored
envelope fails to decrypt; every error is caught, so the handler is a
total function (never crashes). -/
theorem load_credentials_null_cases (ss : SecretStore) (C : CryptoHost)
    {J : Type} (codec : JsonCodec J) (freshKey : List Nat)
    (w : VaultWorld) :
    (w.vaultFile = none →
      (loadCredentials ss C codec freshKey w).1 = LoadResult.nullRes) ∧
    (∀ buf w1, w.vaultFile = some buf →
      getOrGenerateMasterKey ss freshKey w = (none, w1) →
      (loadCredentials ss C codec freshKey w).1 = LoadResult.nullRes) ∧
    (∀ buf masterKey w1, w.vaultFile = some buf →
      getOrGenerateMasterKey ss freshKey w = (some masterKey, w1) →
      decryptData C codec masterKey buf = none →
      (loadCredentials ss C codec freshKey w).1 = LoadResult.nullRes) := by
  refine ⟨?_, ?_, ?_⟩
  · intro h
    simp [loadCredentials, h]
  · intro buf w1 hbuf hkey
    simp [loadCredentials, hbuf, hkey]
  · intro buf masterKey w1 hbuf hkey hdec
    simp [loadCredentials, hbuf, hkey, hdec]

/-- Witness for the amended C4: a world with no vault file yields `null`,
and so does a world whose vault file fails decryption. -/
theorem load_credentials_null_cases_witness :
    (loadCredentials ssW hostW codecW freshW wGood).1 = LoadResult.nullRes ∧
    (loadCredentials ssW hostW codecW freshW wBad).1 = LoadResult.nullRes :=
  ⟨(load_credentials_null_cases ssW hostW codecW freshW wGood).1 rfl,
    (load_credentials_null_cases ssW hostW codecW freshW wBad).2.2
      [9, 9, 9] (List.replicate 32 7) wBad rfl (by decide) (by decide)⟩

/-- Claim C5: when the OS secret store is absent, the
`auth:save-credentials` handler returns `false` (the Unavailable result)
and performs no write — the whole on-disk state, in particular the vault
file, is unchanged. -/
theorem save_unavailable_untouched (ss : SecretStore) (C : CryptoHost)
    {J : Type} (codec : JsonCodec J) (freshKey iv : List Nat) (data : J)
    (w : VaultWorld) (h : ss.available = false) :
    saveCredentials ss C codec freshKey iv data w = (false, w) := by
  simp [saveCredentials, getOrGenerateMasterKey, h]

/-- Witness for C5 at concrete inputs. -/
theorem save_unavailable_untouched_witness :
    ssUnavailW.available = false ∧
    saveCredentials ssUnavailW hostW codecW freshW ivW 5 wGood =
      (false, wGood) :=
  ⟨rfl, save_unavailable_untouched ssUnavailW hostW codecW freshW ivW 5
    wGood rfl⟩

/-- Claim C6: the `auth:clear-credentials` handler is idempotent — it
returns `true` on every state (whether or not the vault file exists),
clearing twice equals clearing once, and a subsequent load returns
`null`. -/
theorem clear_credentials_idempotent (ss : SecretStore) (C : CryptoHost)
    {J : Type} (codec : JsonCodec J) (freshKey : List Nat)
    (w : VaultWorld) :
    (clearCredentials w).1 = true ∧
    clearCredentials (clearCredentials w).2 = clearCredentials w ∧
    (loadCredentials ss C codec freshKey (clearCredentials w).2).1 =
      LoadResult.nullRes :=
  ⟨rfl, rfl, rfl⟩

/-- Claim C7: with the secret store available and the wrapped-key file
holding an uncorrupted wrap of a 32-byte key, two consecutive calls to
`getOrGenerateMasterKey` return the same 32 key bytes, and neither call
changes the on-disk state (so the second call reads exactly what the
first left in place). -/
theorem master_key_stable_two_calls (ss : SecretStore)
    (freshKey1 freshKey2 : List Nat) (w : VaultWorld)
    (blob keyBuffer : List Nat)
    (hss : ss.available = true)
    (hfile : w.keyFile = some blob)
    (hunwrap : ss.unwrap blob = some keyBuffer)
    (hlen : keyBuffer.length = 32) :
    getOrGenerateMasterKey ss freshKey1 w = (some keyBuffer, w) ∧
    getOrGenerateMasterKey ss freshKey2 w = (some keyBuffer, w) := by
  constructor <;> simp [getOrGenerateMasterKey, hss, hfile, hunwrap, hlen]

/-- Witness for C7 at concrete inputs. -/
theorem master_key_stable_two_calls_witness :
    ssW.available = true ∧
    getOrGenerateMasterKey ssW freshW wGood =
      (some (List.replicate 32 7), wGood) :=
  ⟨rfl, (master_key_stable_two_calls ssW freshW freshW wGood
    (List.replicate 32 7) (List.replicate 32 7) rfl rfl (by decide)
    (by decide)).1⟩

theorem signPdfTry_ok_path {Doc : Type} (H : SignHost Doc) (fs : FS)
    (args : SignArgs) (p : List Char) (b : List Nat)
    (h : signPdfTry H fs args = Except.ok (p, b)) :
    p = outputPathOf args.filePath := by
  unfold signPdfTry at h
  repeat any_goals split at h
  all_goals simp_all

theorem outputPathOf_ne (p : List Char) (h : pdfSuffix p = true) :
    outputPathOf p ≠ p := by
  have hp : (p.map Char.toLower).reverse.take 4 = ['f', 'd', 'p', '.'] :=
    of_decide_eq_true h
  have hlen4 : 4 ≤ p.length := by
    have hl := congrArg List.length hp
    simp only [List.length_take, List.length_reverse, List.length_map,
      List.length_cons, List.length_nil] at hl
    rcases Nat.le_total 4 p.length with h4 | h4
    · exact h4
    · rw [Nat.min_eq_right h4] at hl
      omega
  intro heq
  unfold outputPathOf at heq
  rw [if_pos h] at heq
  have hl := congrArg List.length heq
  simp only [List.length_append, List.length_take] at hl
  have hsfx : ("_signed.pdf".data).length = 11 := rfl
  rw [Nat.min_eq_left (Nat.sub_le _ _), hsfx] at hl
  omega

/-- Counterexample to claim C8 as stated: on an out-of-range page index
the handler does not fail with a specific `InvalidPage` error kind — no
such validation exists in the source.  It returns the generic caught
failure whose message is the TypeError text of the `undefined` page
access. -/
theorem invalid_page_counterexample :
    (signPdfHandler docHostW fs0 argsBad).1 =
      SignResult.err pageUndefinedMsg ∧
    SignResult.err pageUndefinedMsg ≠ SignResult.err invalidPageMsg := by
  decide

/-- Claim C8 (amended): for every request whose page index does not index
an existing page, the handler fails — with the generic caught TypeError of
the `undefined` page access, not a discriminated `InvalidPage` kind — and
it does so before any annotation, placeholder, signing or write step: the
file system is unchanged and the result does not depend on the
annotation, placeholder or signing primitives. -/
theorem invalid_page_generic_failure {Doc : Type} (H : SignHost Doc)
    (fs : FS) (args : SignArgs) (buf : List Nat) (doc : Doc)
    (hbuf : fs args.filePath = some buf)
    (hdoc : H.loadPdf buf = some doc)
    (hpage : H.numPages doc ≤ args.pageIndex) :
    (signPdfHandler H fs args).1 = SignResult.err pageUndefinedMsg ∧
    (signPdfHandler H fs args).2 = fs ∧
    (∀ H2 : SignHost Doc, H2.loadPdf = H.loadPdf →
      H2.numPages = H.numPages →
      signPdfHandler H2 fs args = signPdfHandler H fs args) := by
  have hnot : ¬ (args.pageIndex < H.numPages doc) := Nat.not_lt.mpr hpage
  have htry : signPdfTry H fs args = Except.error pageUndefinedMsg := by
    simp [signPdfTry, hbuf, hdoc, hnot]
  refine ⟨?_, ?_, ?_⟩
  · simp [signPdfHandler, htry]
  · simp [signPdfHandler, htry]
  · intro H2 hl hn
    have htry2 : signPdfTry H2 fs args = Except.error pageUndefinedMsg := by
      simp [signPdfTry, hbuf, hl, hdoc, hn, hnot]
    simp [signPdfHandler, htry, htry2]

/-- Witness for the amended C8 at concrete inputs. -/
theorem invalid_page_generic_failure_witness :
    fs0 argsBad.filePath = some [0] ∧
    (signPdfHandler docHostW fs0 argsBad).1 =
      SignResult.err pageUndefinedMsg :=
  ⟨by decide,
    (invalid_page_generic_failure docHostW fs0 argsBad [0] ()
      (by decide) rfl (by decide)).1⟩

/-- Counterexample to claim C9 as stated: for an input path that does not
end in `.pdf` the replace regex does not match, so the output path equals
the input path and a successful run overwrites the input file.  Here the
whole pipeline succeeds on `a.txt`, the returned path is the input path
itself, and the input file's contents have changed. -/
theorem output_path_counterexample :
    (signPdfHandler docHostW fs0 argsTxt).1 =
      SignResult.ok argsTxt.filePath ∧
    (signPdfHandler docHostW fs0 argsTxt).2 argsTxt.filePath ≠
      fs0 argsTxt.filePath := by
  decide

/-- Claim C9 (amended): for every input path ending in `.pdf`
(case-insensitively) the output path `<stem>_signed.pdf` is distinct from
the input path, the input file is never mutated, every successful run
returns exactly that output path, and on any failure the file system is
completely unchanged (the write is the last step, so no partial output is
left behind).  For paths not ending in `.pdf` the output path equals the
input path (see the counterexample). -/
theorem signed_output_fresh_path {Doc : Type} (H : SignHost Doc)
    (fs : FS) (args : SignArgs)
    (hpdf : pdfSuffix args.filePath = true) :
    outputPathOf args.filePath ≠ args.filePath ∧
    (signPdfHandler H fs args).2 args.filePath = fs args.filePath ∧
    (∀ m, (signPdfHandler H fs args).1 = SignResult.err m →
      (signPdfHandler H fs args).2 = fs) ∧
    (∀ p, (signPdfHandler H fs args).1 = SignResult.ok p →
      p = outputPathOf args.filePath) := by
  have hne : outputPathOf args.filePath ≠ args.filePath :=
    outputPathOf_ne _ hpdf
  refine ⟨hne, ?_, ?_, ?_⟩
  · cases htry : signPdfTry H fs args with
    | error m => simp [signPdfHandler, htry]
    | ok pb =>
        obtain ⟨p0, b0⟩ := pb
        have hp0 : p0 = outputPathOf args.filePath :=
          signPdfTry_ok_path H fs args p0 b0 htry
        have hneq : args.filePath ≠ p0 := by
          rw [hp0]
          exact fun hcl => hne hcl.symm
        simp [signPdfHandler, htry, writeFS, hneq]
  · intro m hm
    cases htry : signPdfTry H fs args with
    | error m2 => simp [signPdfHandler, htry]
    | ok pb =>
        obtain ⟨p0, b0⟩ := pb
        rw [signPdfHandler, htry] at hm
        simp at hm
  · intro p hp
    cases htry : signPdfTry H fs args with
    | error m2 =>
        rw [signPdfHandler, htry] at hp
        simp at hp
    | ok pb =>
        obtain ⟨p0, b0⟩ := pb
        have hp0 : p0 = outputPathOf args.filePath :=
          signPdfTry_ok_path H fs args p0 b0 htry
        rw [signPdfHandler, htry] at hp
        simp at hp
        exact hp ▸ hp0

/-- Witness for the amended C9 at concrete inputs. -/
theorem signed_output_fresh_path_witness :
    pdfSuffix argsPdf.filePath = true ∧
    outputPathOf argsPdf.filePath ≠ argsPdf.filePath :=
  ⟨by decide, (signed_output_fresh_path docHostW fs0 argsPdf (by decide)).1⟩

/-- Claim C10: the handler is total at its interface — every invocation
resolves with `{ success: true, path }` or `{ success: false, error }`,
and each failure cause (missing input file, PDF parse failure, missing
certificate bundle, signing failure such as a wrong passphrase) is caught
and surfaced through the `{ success: false, error }` shape rather than
rejecting the invocation. -/
theorem sign_pdf_total_interface {Doc : Type} (H : SignHost Doc)
    (fs : FS) (args : SignArgs) :
    ((∃ p, (signPdfHandler H fs args).1 = SignResult.ok p) ∨
      (∃ m, (signPdfHandler H fs args).1 = SignResult.err m)) ∧
    (fs args.filePath = none →
      (signPdfHandler H fs args).1 = SignResult.err fileReadMsg) ∧
    (∀ buf, fs args.filePath = some buf → H.loadPdf buf = none →
      (signPdfHandler H fs args).1 = SignResult.err pdfParseMsg) ∧
    (∀ buf doc mp ph, fs args.filePath = some buf →
      H.loadPdf buf = some doc → args.pageIndex < H.numPages doc →
      H.annotate doc args = some mp → H.addPlaceholder mp = some ph →
      fs args.certPath = none →
      (signPdfHandler H fs args).1 = SignResult.err certNotFoundMsg) ∧
    (∀ buf doc mp ph p12 m, fs args.filePath = some buf →
      H.loadPdf buf = some doc → args.pageIndex < H.numPages doc →
      H.annotate doc args = some mp → H.addPlaceholder mp = some ph →
      fs args.certPath = some p12 →
      H.p12Sign ph p12 args.password = Except.error m →
      (signPdfHandler H fs args).1 = SignResult.err m) := by
  refine ⟨?_, ?_, ?_, ?_, ?_⟩
  · cases htry : signPdfTry H fs args with
    | error m => exact Or.inr ⟨m, by simp [signPdfHandler, htry]⟩
    | ok pb =>
        obtain ⟨p0, b0⟩ := pb
        exact Or.inl ⟨p0, by simp [signPdfHandler, htry]⟩
  · intro h
    simp [signPdfHandler, signPdfTry, h]
  · intro buf h1 h2
    simp [signPdfHandler, signPdfTry, h1, h2]
  · intro buf doc mp ph h1 h2 h3 h4 h5 h6
    simp [signPdfHandler, signPdfTry, h1, h2, h3, h4, h5, h6]
  · intro buf doc mp ph p12 m h1 h2 h3 h4 h5 h6 h7
    simp [signPdfHandler, signPdfTry, h1, h2, h3, h4, h5, h6, h7]

/-- Witness for C10 at concrete inputs: a missing input file is caught
and returned as the failure result. -/
theorem sign_pdf_total_interface_witness :
    ((fun _ => none : FS) argsPdf.filePath = none) ∧
    (signPdfHandler docHostW (fun _ => none) argsPdf).1 =
      SignResult.err fileReadMsg :=
  ⟨rfl, (sign_pdf_total_interface docHostW (fun _ => none) argsPdf).2.1 rfl⟩

end PdfSigner
